import Mathlib

/-
  Verification of the ofxJSONRPC dispatch core
  (src/libs/ofxJSONRPC/include/ofx/JSONRPC/MethodRegistry.h and
   src/libs/ofxJSONRPC/include/ofx/JSONRPC/BaseMessage.h).

  The message model and the registry data/operations are embedded shallowly.
  The four registerMethod template bodies are present in MethodRegistry.h and
  are translated directly.  The bodies of unregisterMethod, hasMethod,
  getMethods, processCall and processNotification are declared in the header
  but their definitions are not part of the sources; those are modelled from
  the specification text, as marked in their doc comments.
-/

namespace JSONRPC

/-- A JSON value (the Json::Value / ofJson collaborator type).  Numbers are
modelled as integers; the claims under study only need identity of values. -/
inductive Json where
  | null : Json
  | bool (b : Bool) : Json
  | num (n : Int) : Json
  | str (s : String) : Json
  | arr (elems : List Json) : Json
  | obj (fields : List (String × Json)) : Json

/-- The opaque sender handle (the const void* pSender argument). -/
abbrev Sender := Nat

/-- What a single with-args subscriber does when notified with
(sender, MethodArgs): it may set the MethodArgs result, raise a failure,
or do nothing. -/
inductive SubAct where
  | nothing : SubAct
  | setResult (r : Json) : SubAct
  | fail (description : String) : SubAct

/-- A with-args subscriber callback: void(const void*, MethodArgs&). -/
abbrev Subscriber := Sender → Json → SubAct

/-- What a single no-arg subscriber does when notified: it has no MethodArgs,
so it can only raise a failure or do nothing. -/
inductive NoArgAct where
  | nothing : NoArgAct
  | fail (description : String) : NoArgAct

/-- A no-arg subscriber callback: void(const void*) or void(void). -/
abbrev NoArgSubscriber := Sender → NoArgAct

/-- A JSON-RPC Request (Request.h): method name, params and id.
BaseMessage stores id as a JSON value; a null id models an absent id. -/
structure Request where
  method : String
  params : Json
  id : Json

/-- BaseMessage::hasId(): true iff the id is not null. -/
def Request.hasId (r : Request) : Bool :=
  match r.id with
  | Json.null => false
  | _ => true

/-- A JSON-RPC error object (Error.h): code, message, optional data. -/
structure RpcError where
  code : Int
  message : String
  data : Json

/-- Errors.h: RPC_ERROR_METHOD_NOT_FOUND. -/
def RPC_ERROR_METHOD_NOT_FOUND : Int := -32601

/-- Errors.h: RPC_ERROR_INTERNAL_ERROR. -/
def RPC_ERROR_INTERNAL_ERROR : Int := -32603

/-- A JSON-RPC Response (Response.h): either a success response carrying a
result, or an error response carrying an RpcError; both carry the id. -/
inductive Response where
  | success (id : Json) (result : Json) : Response
  | error (id : Json) (err : RpcError) : Response

/-- BaseMessage::id() on a Response. -/
def Response.id : Response → Json
  | Response.success i _ => i
  | Response.error i _ => i

/-- Code of an error Response, none for a success Response. -/
def Response.errorCode : Response → Option Int
  | Response.success _ _ => none
  | Response.error _ e => some e.code

/-- std::map lookup (map.find): the value stored under a key, if present. -/
def mapFind (m : List (String × α)) (k : String) : Option α :=
  match m with
  | [] => none
  | (k2, v) :: rest => if k2 == k then some v else mapFind rest k

/-- std::map::erase by key: remove every binding of the key. -/
def mapErase (m : List (String × α)) (k : String) : List (String × α) :=
  match m with
  | [] => []
  | (k2, v) :: rest => if k2 == k then mapErase rest k else (k2, v) :: mapErase rest k

/-- std::map operator[] assignment: insert or replace the binding of a key. -/
def mapInsert (m : List (String × α)) (k : String) (v : α) : List (String × α) :=
  (k, v) :: mapErase m k

/-- Poco priority event insertion (event += priorityDelegate(listener, method,
priority)): delegates are kept in ascending priority order, with equal
priorities keeping insertion order (the new delegate goes after them). -/
def eventAdd (event : List (Int × α)) (priority : Int) (cb : α) : List (Int × α) :=
  match event with
  | [] => [(priority, cb)]
  | (p, c) :: rest =>
    if priority < p then (priority, cb) :: (p, c) :: rest
    else (p, c) :: eventAdd rest priority cb

/-- A with-args method descriptor (Method.h): name, description and the
priority-ordered subscriber event list. -/
structure Method where
  name : String
  description : Json
  event : List (Int × Subscriber)

/-- A no-arg method descriptor (Method.h NoArgMethod). -/
structure NoArgMethod where
  name : String
  description : Json
  event : List (Int × NoArgSubscriber)

/-- MethodRegistry state: the two name-keyed descriptor tables
(_methodMap and _noArgMethodMap). -/
structure MethodRegistry where
  methodMap : List (String × Method)
  noArgMethodMap : List (String × NoArgMethod)

/-- MethodRegistry(): a fresh registry with both tables empty. -/
def emptyRegistry : MethodRegistry := { methodMap := [], noArgMethodMap := [] }

/-- Modelled from the spec: the body of MethodRegistry::unregisterMethod is
not among the sources (only its declaration is).  Per the spec it removes the
name from both tables if present, and is a no-op, not an error, if absent. -/
def unregisterMethod (reg : MethodRegistry) (method : String) : MethodRegistry :=
  { methodMap := mapErase reg.methodMap method,
    noArgMethodMap := mapErase reg.noArgMethodMap method }

/-- MethodRegistry::registerMethod, the two with-args overloads
(MethodRegistry.h lines 243-273): first unregisterMethod(name), then
_methodMap[name] = new Method(name, description), then
_methodMap[name]->event += priorityDelegate(listener, listenerMethod,
priority). -/
def registerMethod (reg : MethodRegistry) (name : String) (description : Json)
    (listenerMethod : Subscriber) (priority : Int) : MethodRegistry :=
  let reg2 := unregisterMethod reg name
  { reg2 with
    methodMap := mapInsert reg2.methodMap name
      { name := name, description := description,
        event := eventAdd [] priority listenerMethod } }

/-- MethodRegistry::registerMethod, the two no-arg overloads
(MethodRegistry.h lines 275-307): first unregisterMethod(name), then
_noArgMethodMap[name] = new NoArgMethod(name, description), then
_noArgMethodMap[name]->event += priorityDelegate(listener, listenerMethod,
priority). -/
def registerNoArgMethod (reg : MethodRegistry) (name : String) (description : Json)
    (listenerMethod : NoArgSubscriber) (priority : Int) : MethodRegistry :=
  let reg2 := unregisterMethod reg name
  { reg2 with
    noArgMethodMap := mapInsert reg2.noArgMethodMap name
      { name := name, description := description,
        event := eventAdd [] priority listenerMethod } }

/-- Modelled from the spec: the body of MethodRegistry::hasMethod is not among
the sources.  Per the spec it is true iff the name is present in either table. -/
def hasMethod (reg : MethodRegistry) (method : String) : Bool :=
  (mapFind reg.methodMap method).isSome || (mapFind reg.noArgMethodMap method).isSome

/-- Modelled from the spec: the body of MethodRegistry::getMethods is not among
the sources.  Per the spec it returns a snapshot mapping of name to description
for all registered methods, both tables merged; in this value-semantics model
the returned list is a fresh value that shares no mutable storage. -/
def getMethods (reg : MethodRegistry) : List (String × Json) :=
  reg.methodMap.map (fun p => (p.1, p.2.description))
    ++ reg.noArgMethodMap.map (fun p => (p.1, p.2.description))

/-- Notifying a with-args event (ofNotifyEvent): subscribers run in stored
(ascending-priority) order sharing one MethodArgs result slot; a raised
failure aborts the remaining subscribers and propagates. -/
def invokeSubs (sender : Sender) (params : Json) :
    List (Int × Subscriber) → Option Json → Except String (Option Json)
  | [], acc => Except.ok acc
  | (_, s) :: rest, acc =>
    match s sender params with
    | SubAct.fail d => Except.error d
    | SubAct.setResult r => invokeSubs sender params rest (some r)
    | SubAct.nothing => invokeSubs sender params rest acc

/-- Notifying a no-arg event: subscribers run in stored order; a raised
failure aborts the remaining subscribers and propagates; no result slot
exists for them to fill. -/
def invokeNoArgSubs (sender : Sender) :
    List (Int × NoArgSubscriber) → Except String Unit
  | [] => Except.ok ()
  | (_, s) :: rest =>
    match s sender with
    | NoArgAct.fail d => Except.error d
    | NoArgAct.nothing => invokeNoArgSubs sender rest

/-- The Method Not Found error Response for a given request id. -/
def methodNotFoundResponse (id : Json) : Response :=
  Response.error id
    { code := RPC_ERROR_METHOD_NOT_FOUND, message := "Method Not Found",
      data := Json.null }

/-- The Internal Error Response for a subscriber failure, data set to the
failure description. -/
def internalErrorResponse (id : Json) (description : String) : Response :=
  Response.error id
    { code := RPC_ERROR_INTERNAL_ERROR, message := "Internal Error",
      data := Json.str description }

/-- The Internal Error Response for a matched method that produced no result. -/
def noResultResponse (id : Json) : Response :=
  Response.error id
    { code := RPC_ERROR_INTERNAL_ERROR, message := "Internal Error",
      data := Json.str "no result produced" }

/-- Modelled from the spec: the body of MethodRegistry::processCall is not
among the sources (only its declaration is).  Per the spec: if the name is
absent from both tables, return a Method Not Found error Response carrying the
request id; otherwise invoke every subscriber of the matched descriptor in
priority order; a subscriber failure is caught at this boundary and becomes an
Internal Error Response with data describing the failure; if no subscriber
supplied a result and none failed, an Internal Error (no result produced)
Response is returned; otherwise a success Response wrapping the produced
result.  Every branch carries the request id unchanged. -/
def processCall (reg : MethodRegistry) (sender : Sender) (request : Request) :
    Response :=
  match mapFind reg.methodMap request.method with
  | some m =>
    match invokeSubs sender request.params m.event none with
    | Except.error d => internalErrorResponse request.id d
    | Except.ok none => noResultResponse request.id
    | Except.ok (some r) => Response.success request.id r
  | none =>
    match mapFind reg.noArgMethodMap request.method with
    | some m =>
      match invokeNoArgSubs sender m.event with
      | Except.error d => internalErrorResponse request.id d
      | Except.ok _ => noResultResponse request.id
    | none => methodNotFoundResponse request.id

/-- Modelled from the spec: the body of MethodRegistry::processNotification is
not among the sources (only its declaration is).  Per the spec it performs the
same lookup and invocation as processCall but returns no value: an unknown
method is silently ignored and a subscriber failure is swallowed (logged
internally).  The returned list collects every Response made observable to the
caller, so that producing none is a provable statement. -/
def processNotification (reg : MethodRegistry) (sender : Sender)
    (request : Request) : List Response :=
  match mapFind reg.methodMap request.method with
  | some m =>
    match invokeSubs sender request.params m.event none with
    | Except.error _ => []
    | Except.ok _ => []
  | none =>
    match mapFind reg.noArgMethodMap request.method with
    | some m =>
      match invokeNoArgSubs sender m.event with
      | Except.error _ => []
      | Except.ok _ => []
    | none => []

/-- One of the four registerMethod overloads together with its descriptor
arguments: the two with-args overloads collapse to withArgs and the two
no-arg overloads collapse to noArg. -/
inductive RegOp where
  | withArgs (description : Json) (cb : Subscriber) (priority : Int) : RegOp
  | noArg (description : Json) (cb : NoArgSubscriber) (priority : Int) : RegOp

/-- Dispatch a registration to the matching registerMethod overload. -/
def applyRegister (reg : MethodRegistry) (name : String) : RegOp → MethodRegistry
  | RegOp.withArgs d cb p => registerMethod reg name d cb p
  | RegOp.noArg d cb p => registerNoArgMethod reg name d cb p

/-- A public mutation of the registry: one of the registerMethod overloads or
unregisterMethod. -/
inductive RegistryOp where
  | register (name : String) (op : RegOp) : RegistryOp
  | unregister (name : String) : RegistryOp

/-- Apply one public mutation. -/
def applyOp (reg : MethodRegistry) : RegistryOp → MethodRegistry
  | RegistryOp.register name op => applyRegister reg name op
  | RegistryOp.unregister name => unregisterMethod reg name

/-- The registry reached by running a sequence of public mutations on a
freshly constructed registry. -/
def runOps (ops : List RegistryOp) : MethodRegistry :=
  ops.foldl applyOp emptyRegistry

/-- How many descriptors, across both tables, a name currently keys. -/
def countName (reg : MethodRegistry) (name : String) : Nat :=
  (reg.methodMap.filter (fun p => p.1 == name)).length
    + (reg.noArgMethodMap.filter (fun p => p.1 == name)).length

theorem mapFind_mapErase_self (m : List (String × α)) (k : String) :
    mapFind (mapErase m k) k = none := by
  induction m with
  | nil => rfl
  | cons hd tl ih =>
    obtain ⟨k2, v⟩ := hd
    by_cases h : k2 = k
    · simpa [mapErase, h] using ih
    · simp [mapErase, mapFind, h, ih]

theorem mapFind_mapErase_ne (m : List (String × α)) (k k2 : String)
    (h : k2 ≠ k) : mapFind (mapErase m k) k2 = mapFind m k2 := by
  induction m with
  | nil => rfl
  | cons hd tl ih =>
    obtain ⟨k3, v⟩ := hd
    by_cases h3 : k3 = k
    · have hne : ¬(k = k2) := fun hc => h hc.symm
      simp [mapErase, mapFind, h3, hne, ih]
    · by_cases h4 : k3 = k2
      · simp [mapErase, mapFind, h3, h4, h, ih]
      · simp [mapErase, mapFind, h3, h4, ih]

theorem mapFind_mapInsert_self (m : List (String × α)) (k : String) (v : α) :
    mapFind (mapInsert m k v) k = some v := by
  simp [mapInsert, mapFind]

theorem mapFind_mapInsert_ne (m : List (String × α)) (k k2 : String) (v : α)
    (h : k2 ≠ k) : mapFind (mapInsert m k v) k2 = mapFind m k2 := by
  have h2 : ¬(k = k2) := fun hc => h hc.symm
  simp [mapInsert, mapFind, h2, mapFind_mapErase_ne _ _ _ h]

theorem mem_keys_iff_find_isSome (m : List (String × α)) (k : String) :
    k ∈ m.map Prod.fst ↔ (mapFind m k).isSome = true := by
  induction m with
  | nil => simp [mapFind]
  | cons hd tl ih =>
    obtain ⟨k2, v⟩ := hd
    by_cases h : k2 = k
    · simp [mapFind, h]
    · have h2 : ¬(k = k2) := fun hc => h hc.symm
      simp [mapFind, h, h2, ih]

theorem mapErase_of_find_none (m : List (String × α)) (k : String)
    (h : mapFind m k = none) : mapErase m k = m := by
  induction m with
  | nil => rfl
  | cons hd tl ih =>
    obtain ⟨k2, v⟩ := hd
    by_cases h2 : k2 = k
    · simp [mapFind, h2] at h
    · simp [mapFind, h2] at h
      simp [mapErase, h2, ih h]

theorem mapErase_filter_eq_nil (m : List (String × α)) (k : String) :
    (mapErase m k).filter (fun p => p.1 == k) = [] := by
  induction m with
  | nil => rfl
  | cons hd tl ih =>
    obtain ⟨k2, v⟩ := hd
    by_cases h : k2 = k
    · simpa [mapErase, h] using ih
    · simp [mapErase, h, List.filter, ih]

theorem mapInsert_filter_eq_single (m : List (String × α)) (k : String) (v : α) :
    (mapInsert m k v).filter (fun p => p.1 == k) = [(k, v)] := by
  simp [mapInsert, List.filter, mapErase_filter_eq_nil]

theorem keys_contains_eq_isSome (m : List (String × α)) (k : String) :
    (m.map Prod.fst).contains k = (mapFind m k).isSome := by
  induction m with
  | nil => rfl
  | cons hd tl ih =>
    obtain ⟨k2, v⟩ := hd
    by_cases h : k2 = k
    · simp [mapFind, h]
    · have h2 : (k == k2) = false := by
        simp
        exact fun hc => h hc.symm
      simpa [mapFind, h, h2] using ih

theorem processCall_of_find_none (reg : MethodRegistry) (sender : Sender)
    (req : Request) (h1 : mapFind reg.methodMap req.method = none)
    (h2 : mapFind reg.noArgMethodMap req.method = none) :
    processCall reg sender req = methodNotFoundResponse req.id := by
  simp [processCall, h1, h2]

/-- C1: for every Request with a present, non-null id, processCall returns
exactly one Response (it is a total function into Response) whose id equals
the request id, in every reachable outcome: method not found, subscriber
failure, no result produced, and success. -/
theorem processCall_preserves_id (reg : MethodRegistry) (sender : Sender)
    (req : Request) (h : req.hasId = true) :
    (processCall reg sender req).id = req.id := by
  cases hm : mapFind reg.methodMap req.method with
  | some m =>
    cases hi : invokeSubs sender req.params m.event none with
    | error d =>
      simp [processCall, hm, hi, internalErrorResponse, Response.id]
    | ok o =>
      cases o with
      | none => simp [processCall, hm, hi, noResultResponse, Response.id]
      | some r => simp [processCall, hm, hi, Response.id]
  | none =>
    cases hn : mapFind reg.noArgMethodMap req.method with
    | some m =>
      cases hi : invokeNoArgSubs sender m.event with
      | error d =>
        simp [processCall, hm, hn, hi, internalErrorResponse, Response.id]
      | ok u =>
        simp [processCall, hm, hn, hi, noResultResponse, Response.id]
    | none =>
      simp [processCall, hm, hn, methodNotFoundResponse, Response.id]

theorem processCall_preserves_id_witness :
    ({ method := "missing", params := Json.null, id := Json.num 1 } : Request).hasId = true
    ∧ (processCall emptyRegistry 0
        { method := "missing", params := Json.null, id := Json.num 1 }).id = Json.num 1 :=
  ⟨rfl, processCall_preserves_id emptyRegistry 0
    { method := "missing", params := Json.null, id := Json.num 1 } rfl⟩

/-- C2: for every Request and sender, processNotification never produces an
observable Response to the caller, including when the method name is absent
from both tables and when a subscriber raises a failure. -/
theorem processNotification_silent (reg : MethodRegistry) (sender : Sender)
    (req : Request) : processNotification reg sender req = [] := by
  cases hm : mapFind reg.methodMap req.method with
  | some m =>
    cases hi : invokeSubs sender req.params m.event none with
    | error d => simp [processNotification, hm, hi]
    | ok o => simp [processNotification, hm, hi]
  | none =>
    cases hn : mapFind reg.noArgMethodMap req.method with
    | some m =>
      cases hi : invokeNoArgSubs sender m.event with
      | error d => simp [processNotification, hm, hn, hi]
      | ok u => simp [processNotification, hm, hn, hi]
    | none => simp [processNotification, hm, hn]

/-- C3: for every Request whose method name is absent from both tables at
call time, processCall returns an error Response with code -32601 (Method Not
Found) carrying the request id unchanged. -/
theorem processCall_method_not_found (reg : MethodRegistry) (sender : Sender)
    (req : Request) (h : hasMethod reg req.method = false) :
    processCall reg sender req = methodNotFoundResponse req.id
    ∧ (processCall reg sender req).errorCode = some (-32601)
    ∧ (processCall reg sender req).id = req.id := by
  have h2 := h
  unfold hasMethod at h2
  cases hm : mapFind reg.methodMap req.method with
  | some m => simp [hm] at h2
  | none =>
    cases hn : mapFind reg.noArgMethodMap req.method with
    | some m => simp [hm, hn] at h2
    | none =>
      refine ⟨processCall_of_find_none reg sender req hm hn, ?_, ?_⟩
      · simp [processCall_of_find_none reg sender req hm hn,
          methodNotFoundResponse, Response.errorCode, RPC_ERROR_METHOD_NOT_FOUND]
      · simp [processCall_of_find_none reg sender req hm hn,
          methodNotFoundResponse, Response.id]

theorem processCall_method_not_found_witness :
    hasMethod emptyRegistry "missing" = false
    ∧ (processCall emptyRegistry 0
          { method := "missing", params := Json.null, id := Json.str "abc" }
        = methodNotFoundResponse (Json.str "abc")
      ∧ (processCall emptyRegistry 0
          { method := "missing", params := Json.null, id := Json.str "abc" }).errorCode
          = some (-32601)
      ∧ (processCall emptyRegistry 0
          { method := "missing", params := Json.null, id := Json.str "abc" }).id
          = Json.str "abc") :=
  ⟨rfl, processCall_method_not_found emptyRegistry 0
    { method := "missing", params := Json.null, id := Json.str "abc" } rfl⟩

/-- C4: when a matched descriptor's subscriber invocation raises a failure —
the descriptor being of either shape, a with-args Method or a NoArgMethod —
processCall catches it at the registry boundary and returns an error Response
with code -32603 (Internal Error), data set to a description of the failure
and id unchanged; processCall being a total function into Response, the
failure never propagates to its caller. -/
theorem processCall_subscriber_failure (reg : MethodRegistry) (sender : Sender)
    (req : Request) (d : String)
    (hf : (∃ m, mapFind reg.methodMap req.method = some m
            ∧ invokeSubs sender req.params m.event none = Except.error d)
        ∨ (mapFind reg.methodMap req.method = none
            ∧ ∃ m, mapFind reg.noArgMethodMap req.method = some m
              ∧ invokeNoArgSubs sender m.event = Except.error d)) :
    processCall reg sender req = internalErrorResponse req.id d
    ∧ (processCall reg sender req).errorCode = some (-32603)
    ∧ (processCall reg sender req).id = req.id := by
  rcases hf with ⟨m, hm, hi⟩ | ⟨hm0, m, hn, hi⟩
  · refine ⟨?_, ?_, ?_⟩ <;>
      simp [processCall, hm, hi, internalErrorResponse, Response.errorCode,
        Response.id, RPC_ERROR_INTERNAL_ERROR]
  · refine ⟨?_, ?_, ?_⟩ <;>
      simp [processCall, hm0, hn, hi, internalErrorResponse, Response.errorCode,
        Response.id, RPC_ERROR_INTERNAL_ERROR]

/-- A no-arg subscriber that raises a failure, used as a concrete listener
method. -/
def noArgBoomSubscriber : NoArgSubscriber := fun _ => NoArgAct.fail "boom failed"

/-- The boom scenario from the spec, with the method registered through the
no-arg overload. -/
def boomRegistry : MethodRegistry :=
  registerNoArgMethod emptyRegistry "boom" Json.null noArgBoomSubscriber 0

/-- The boom request from the spec scenario. -/
def boomRequest : Request :=
  { method := "boom", params := Json.null, id := Json.num 5 }

theorem processCall_subscriber_failure_witness :
    (mapFind boomRegistry.methodMap boomRequest.method = none
      ∧ ∃ m, mapFind boomRegistry.noArgMethodMap boomRequest.method = some m
        ∧ invokeNoArgSubs 0 m.event = Except.error "boom failed")
    ∧ (processCall boomRegistry 0 boomRequest
        = internalErrorResponse (Json.num 5) "boom failed"
      ∧ (processCall boomRegistry 0 boomRequest).errorCode = some (-32603)
      ∧ (processCall boomRegistry 0 boomRequest).id = Json.num 5) :=
  ⟨⟨rfl, ⟨{ name := "boom", description := Json.null,
            event := [(0, noArgBoomSubscriber)] }, rfl, rfl⟩⟩,
   processCall_subscriber_failure boomRegistry 0 boomRequest "boom failed"
     (Or.inr ⟨rfl, ⟨{ name := "boom", description := Json.null,
                      event := [(0, noArgBoomSubscriber)] }, rfl, rfl⟩⟩)⟩

/-- C5: when a matched descriptor's subscribers are invoked, none fails and
none supplies a result — covering a with-args Method whose invocation leaves
the result slot empty (including an empty subscriber list) and a NoArgMethod
whose subscribers all return (they have no result slot at all) — processCall
returns an error Response with code -32603 (Internal Error, no result
produced) with id unchanged, rather than a success Response or no Response. -/
theorem processCall_no_result (reg : MethodRegistry) (sender : Sender)
    (req : Request)
    (hr : (∃ m, mapFind reg.methodMap req.method = some m
            ∧ invokeSubs sender req.params m.event none = Except.ok none)
        ∨ (mapFind reg.methodMap req.method = none
            ∧ ∃ m, mapFind reg.noArgMethodMap req.method = some m
              ∧ invokeNoArgSubs sender m.event = Except.ok ())) :
    processCall reg sender req = noResultResponse req.id
    ∧ (processCall reg sender req).errorCode = some (-32603)
    ∧ (processCall reg sender req).id = req.id := by
  rcases hr with ⟨m, hm, hi⟩ | ⟨hm0, m, hn, hi⟩
  · refine ⟨?_, ?_, ?_⟩ <;>
      simp [processCall, hm, hi, noResultResponse, Response.errorCode,
        Response.id, RPC_ERROR_INTERNAL_ERROR]
  · refine ⟨?_, ?_, ?_⟩ <;>
      simp [processCall, hm0, hn, hi, noResultResponse, Response.errorCode,
        Response.id, RPC_ERROR_INTERNAL_ERROR]

/-- A subscriber that does nothing and in particular supplies no result. -/
def noopSubscriber : Subscriber := fun _ _ => SubAct.nothing

/-- The registry of the noop scenario from the spec. -/
def noopRegistry : MethodRegistry :=
  registerMethod emptyRegistry "noop" Json.null noopSubscriber 0

/-- The noop request from the spec scenario. -/
def noopRequest : Request :=
  { method := "noop", params := Json.null, id := Json.num 7 }

theorem processCall_no_result_witness :
    (∃ m, mapFind noopRegistry.methodMap noopRequest.method = some m
      ∧ invokeSubs 0 noopRequest.params m.event none = Except.ok none)
    ∧ (processCall noopRegistry 0 noopRequest = noResultResponse (Json.num 7)
      ∧ (processCall noopRegistry 0 noopRequest).errorCode = some (-32603)
      ∧ (processCall noopRegistry 0 noopRequest).id = Json.num 7) :=
  ⟨⟨{ name := "noop", description := Json.null,
      event := [(0, noopSubscriber)] }, rfl, rfl⟩,
   processCall_no_result noopRegistry 0 noopRequest
     (Or.inl ⟨{ name := "noop", description := Json.null,
                event := [(0, noopSubscriber)] }, rfl, rfl⟩)⟩

/-- C6: after any two successive registerMethod calls with the same name
(through any of the overloads), the registry holds exactly one active
descriptor under that name across both tables, carrying only the second
call's description and subscriber set: registering an existing name first
silently unregisters the prior entry and then inserts fresh. -/
theorem registerMethod_replaces_prior (reg : MethodRegistry) (name : String)
    (op1 op2 : RegOp) :
    countName (applyRegister (applyRegister reg name op1) name op2) name = 1
    ∧ (match op2 with
       | RegOp.withArgs d cb p =>
           mapFind (applyRegister (applyRegister reg name op1) name op2).methodMap name
             = some { name := name, description := d, event := [(p, cb)] }
           ∧ mapFind (applyRegister (applyRegister reg name op1) name op2).noArgMethodMap name
             = none
       | RegOp.noArg d cb p =>
           mapFind (applyRegister (applyRegister reg name op1) name op2).noArgMethodMap name
             = some { name := name, description := d, event := [(p, cb)] }
           ∧ mapFind (applyRegister (applyRegister reg name op1) name op2).methodMap name
             = none) := by
  cases op1 <;> cases op2 <;>
    simp [applyRegister, registerMethod, registerNoArgMethod, unregisterMethod,
      countName, mapInsert_filter_eq_single, mapErase_filter_eq_nil,
      mapFind_mapInsert_self, mapFind_mapErase_self, eventAdd]

/-- C7: unregisterMethod removes the name from both internal tables if present
and is a no-op, not an error, if absent; afterwards hasMethod is false and a
subsequent processCall on that name returns an error Response with code
-32601 carrying the request id. -/
theorem unregisterMethod_removes (reg : MethodRegistry) (name : String)
    (sender : Sender) (req : Request) (h : req.method = name) :
    hasMethod (unregisterMethod reg name) name = false
    ∧ (hasMethod reg name = false → unregisterMethod reg name = reg)
    ∧ processCall (unregisterMethod reg name) sender req
        = methodNotFoundResponse req.id
    ∧ (processCall (unregisterMethod reg name) sender req).errorCode
        = some (-32601) := by
  subst h
  have h1 : mapFind (unregisterMethod reg req.method).methodMap req.method = none := by
    simp [unregisterMethod, mapFind_mapErase_self]
  have h2 : mapFind (unregisterMethod reg req.method).noArgMethodMap req.method = none := by
    simp [unregisterMethod, mapFind_mapErase_self]
  have h3 := processCall_of_find_none (unregisterMethod reg req.method) sender req h1 h2
  refine ⟨?_, ?_, h3, ?_⟩
  · simp [hasMethod, h1, h2]
  · intro hab
    cases hfm : mapFind reg.methodMap req.method with
    | some m => simp [hasMethod, hfm] at hab
    | none =>
      cases hfn : mapFind reg.noArgMethodMap req.method with
      | some m => simp [hasMethod, hfm, hfn] at hab
      | none =>
        simp [unregisterMethod, mapErase_of_find_none _ _ hfm,
          mapErase_of_find_none _ _ hfn]
  · simp [h3, methodNotFoundResponse, Response.errorCode,
      RPC_ERROR_METHOD_NOT_FOUND]

/-- A registry with the single with-args method m, used as a concrete input. -/
def mRegistry : MethodRegistry :=
  registerMethod emptyRegistry "m" Json.null noopSubscriber 0

/-- A concrete request for method m. -/
def mRequest : Request :=
  { method := "m", params := Json.null, id := Json.str "x" }

theorem unregisterMethod_removes_witness :
    mRequest.method = "m"
    ∧ (hasMethod (unregisterMethod mRegistry "m") "m" = false
      ∧ (hasMethod mRegistry "m" = false → unregisterMethod mRegistry "m" = mRegistry)
      ∧ processCall (unregisterMethod mRegistry "m") 0 mRequest
          = methodNotFoundResponse mRequest.id
      ∧ (processCall (unregisterMethod mRegistry "m") 0 mRequest).errorCode
          = some (-32601)) :=
  ⟨rfl, unregisterMethod_removes mRegistry "m" 0 mRequest rfl⟩

/-- A no-arg subscriber that does nothing. -/
def noArgNoopSubscriber : NoArgSubscriber := fun _ => NoArgAct.nothing

/-- C8 counterexample: registering name m under the no-arg shape while m is
present in the with-args table does not leave both name slots used: the
with-args slot is empty afterwards, because the overload begins with
unregisterMethod, which clears the name from both tables. -/
theorem dual_registration_refuted :
    hasMethod (registerMethod emptyRegistry "m" Json.null noopSubscriber 0) "m" = true
    ∧ mapFind (registerNoArgMethod
          (registerMethod emptyRegistry "m" Json.null noopSubscriber 0)
          "m" Json.null noArgNoopSubscriber 0).methodMap "m" = none
    ∧ mapFind (registerNoArgMethod
          (registerMethod emptyRegistry "m" Json.null noopSubscriber 0)
          "m" Json.null noArgNoopSubscriber 0).noArgMethodMap "m"
        = some { name := "m", description := Json.null,
                 event := [(0, noArgNoopSubscriber)] } :=
  ⟨rfl, rfl, rfl⟩

/-- C8 amended: after every sequence of registerMethod and unregisterMethod
operations on a fresh registry, no name is simultaneously present in both the
with-args table and the no-arg table: every registerMethod overload first
unregisters the name from both tables, so registration does enforce mutual
exclusion across the two tables. -/
theorem register_mutual_exclusion (ops : List RegistryOp) (name : String) :
    mapFind (runOps ops).methodMap name = none
    ∨ mapFind (runOps ops).noArgMethodMap name = none := by
  have key : ∀ (rest : List RegistryOp) (reg : MethodRegistry),
      (∀ n, mapFind reg.methodMap n = none ∨ mapFind reg.noArgMethodMap n = none) →
      ∀ n, mapFind (rest.foldl applyOp reg).methodMap n = none
        ∨ mapFind (rest.foldl applyOp reg).noArgMethodMap n = none := by
    intro rest
    induction rest with
    | nil => exact fun reg h n => h n
    | cons o tl ih =>
      intro reg h n
      apply ih
      intro n2
      cases o with
      | register name2 rop =>
        cases rop with
        | withArgs d cb p =>
          by_cases he : n2 = name2
          · subst he
            exact Or.inr (by
              simp [applyOp, applyRegister, registerMethod, unregisterMethod,
                mapFind_mapErase_self])
          · rcases h n2 with hl | hr
            · exact Or.inl (by
                simp [applyOp, applyRegister, registerMethod, unregisterMethod,
                  mapFind_mapInsert_ne _ _ _ _ he,
                  mapFind_mapErase_ne _ _ _ he, hl])
            · exact Or.inr (by
                simp [applyOp, applyRegister, registerMethod, unregisterMethod,
                  mapFind_mapErase_ne _ _ _ he, hr])
        | noArg d cb p =>
          by_cases he : n2 = name2
          · subst he
            exact Or.inl (by
              simp [applyOp, applyRegister, registerNoArgMethod, unregisterMethod,
                mapFind_mapErase_self])
          · rcases h n2 with hl | hr
            · exact Or.inl (by
                simp [applyOp, applyRegister, registerNoArgMethod, unregisterMethod,
                  mapFind_mapErase_ne _ _ _ he, hl])
            · exact Or.inr (by
                simp [applyOp, applyRegister, registerNoArgMethod, unregisterMethod,
                  mapFind_mapInsert_ne _ _ _ _ he,
                  mapFind_mapErase_ne _ _ _ he, hr])
      | unregister name2 =>
        by_cases he : n2 = name2
        · subst he
          exact Or.inl (by simp [applyOp, unregisterMethod, mapFind_mapErase_self])
        · rcases h n2 with hl | hr
          · exact Or.inl (by
              simp [applyOp, unregisterMethod, mapFind_mapErase_ne _ _ _ he, hl])
          · exact Or.inr (by
              simp [applyOp, unregisterMethod, mapFind_mapErase_ne _ _ _ he, hr])
  exact key ops emptyRegistry (fun n => Or.inl rfl) name

theorem getMethods_mem_iff (reg : MethodRegistry) (name : String) :
    name ∈ (getMethods reg).map Prod.fst
      ↔ (name ∈ reg.methodMap.map Prod.fst
        ∨ name ∈ reg.noArgMethodMap.map Prod.fst) := by
  simp [getMethods, List.mem_append, List.mem_map]

/-- C9: getMethods covers both tables: a name is among the keys of the
returned description map exactly when hasMethod holds for it.  The returned
map is a snapshot by value semantics: a later unregisterMethod produces a
registry whose getMethods no longer contains the name, while the map returned
for the earlier registry, being an independent value, still satisfies the
first conjunct unchanged. -/
theorem getMethods_snapshot_coverage (reg : MethodRegistry) (name : String) :
    (name ∈ (getMethods reg).map Prod.fst ↔ hasMethod reg name = true)
    ∧ name ∉ (getMethods (unregisterMethod reg name)).map Prod.fst := by
  constructor
  · rw [getMethods_mem_iff, mem_keys_iff_find_isSome, mem_keys_iff_find_isSome,
      hasMethod]
    simp
  · rw [getMethods_mem_iff, mem_keys_iff_find_isSome, mem_keys_iff_find_isSome]
    simp [unregisterMethod, mapFind_mapErase_self]

end JSONRPC
